import Mathlib

/-!
Verification of the CostWise source-aggregation core: a shallow embedding of
the cache store, the fixed-window rate limiter, the BEA price-parity fetcher,
the HUD ZIP-to-metro resolver and batch rent route, and the EIA energy-price
composition, together with theorems settling the specification claims.

Conventions of the embedding:
- JavaScript numbers that hold prices, indices or ratios are modelled as `ℚ`;
  timestamps (`Date.now()`, milliseconds) as `ℤ`; counts as `ℕ`.
- A JavaScript value that may be `null`/`undefined` is modelled as an `Option`.
- JavaScript string primitives (`trim`, `split(",")`, SQL `LIKE '%s%'`) are
  modelled by executable functions on the character list of a `String`.
- The external stores (Supabase tables) are modelled by their contents; a
  query is the corresponding pure filter/sort/limit pipeline, and `upsert`
  keyed on a unique constraint is a pointwise function update.
-/

set_option maxRecDepth 8000

namespace CostWise

/-! ## JavaScript / SQL string primitives -/

/-- Model of `String.prototype.trim()`: drop leading and trailing whitespace. -/
def jsTrim (s : String) : String :=
  ⟨((s.data.dropWhile Char.isWhitespace).reverse.dropWhile Char.isWhitespace).reverse⟩

/-- Model of `String.prototype.split(",")`, on character lists:
`"" ↦ [""]`, `"a,b" ↦ ["a","b"]`, `"a," ↦ ["a",""]`. -/
def splitCommaChars : List Char → List (List Char)
  | [] => [[]]
  | c :: cs =>
    let r := splitCommaChars cs
    if c = ',' then [] :: r
    else
      match r with
      | [] => [[c]]
      | h :: t => (c :: h) :: t

/-- Model of `name.split(',')`. -/
def splitComma (s : String) : List String := (splitCommaChars s.data).map fun l => ⟨l⟩

/-- `startsWithChars p l`: `p` is an initial segment of `l`. -/
def startsWithChars : List Char → List Char → Bool
  | [], _ => true
  | _ :: _, [] => false
  | p :: ps, c :: cs => p = c && startsWithChars ps cs

/-- `occursInChars pat l`: `pat` occurs contiguously somewhere in `l`. -/
def occursInChars (pat : List Char) : List Char → Bool
  | [] => startsWithChars pat []
  | c :: cs => startsWithChars pat (c :: cs) || occursInChars pat cs

/-- Model of the SQL pattern `LIKE '%pat%'` (Postgres, case-sensitive):
`pat` occurs as a contiguous substring of `s`. -/
def containsSubstring (s pat : String) : Bool := occursInChars pat.data s.data

/-- Model of `String.prototype.toUpperCase()` for the ASCII inputs used here. -/
def jsToUpper (s : String) : String := ⟨s.data.map Char.toUpper⟩

/-- Model of `takeChars n s`: the first `n` characters (`substring(0, n)`). -/
def takeChars (n : ℕ) (s : String) : String := ⟨s.data.take n⟩

/-- Model of `validateZipCode` (src/lib/api/hud.ts): the regex `/^\d{5}$/`. -/
def validateZipCode (s : String) : Bool := s.data.length == 5 && s.data.all Char.isDigit

/-! ## Stable descending sort

Models both JavaScript `Array.prototype.sort` with the numeric comparator
`(a, b) => key(b) - key(a)` (stable since ES2019: descending by key, ties keep
input order) and the SQL `ORDER BY key DESC` used by the crosswalk queries.
An insertion sort that inserts each element before the first element whose key
is not larger realises exactly that specification. -/

variable {α : Type}

/-- Insert `x` into `l` before the first element whose key is not larger than
the key of `x`; elements with an equal key stay in front of no inserted
element that preceded them. -/
def insertDescBy (key : α → ℚ) (x : α) : List α → List α
  | [] => [x]
  | y :: ys => if key y > key x then y :: insertDescBy key x ys else x :: y :: ys

/-- Stable sort by `key`, descending. -/
def sortDescBy (key : α → ℚ) : List α → List α
  | [] => []
  | x :: xs => insertDescBy key x (sortDescBy key xs)

theorem insertDescBy_perm (key : α → ℚ) (x : α) (l : List α) :
    List.Perm (insertDescBy key x l) (x :: l) := by
  induction l with
  | nil => exact List.Perm.refl _
  | cons y ys ih =>
    unfold insertDescBy
    split
    · exact (ih.cons y).trans (List.Perm.swap x y ys)
    · exact List.Perm.refl _

theorem sortDescBy_perm (key : α → ℚ) (l : List α) : List.Perm (sortDescBy key l) l := by
  induction l with
  | nil => exact List.Perm.refl _
  | cons x xs ih => exact (insertDescBy_perm key x (sortDescBy key xs)).trans (ih.cons x)

theorem mem_sortDescBy (key : α → ℚ) {a : α} {l : List α} :
    a ∈ sortDescBy key l ↔ a ∈ l :=
  (sortDescBy_perm key l).mem_iff

theorem sortDescBy_length (key : α → ℚ) (l : List α) :
    (sortDescBy key l).length = l.length :=
  (sortDescBy_perm key l).length_eq

theorem sortDescBy_eq_nil_iff (key : α → ℚ) {l : List α} :
    sortDescBy key l = [] ↔ l = [] := by
  constructor
  · intro h
    have hl := sortDescBy_length key l
    rw [h] at hl
    exact List.eq_nil_of_length_eq_zero hl.symm
  · intro h
    subst h
    rfl

theorem insertDescBy_pairwise (key : α → ℚ) (x : α) {l : List α}
    (h : l.Pairwise fun a b => key b ≤ key a) :
    (insertDescBy key x l).Pairwise fun a b => key b ≤ key a := by
  induction l with
  | nil => simp [insertDescBy]
  | cons y ys ih =>
    rw [List.pairwise_cons] at h
    unfold insertDescBy
    split
    · rename_i hgt
      refine List.pairwise_cons.2 ⟨?_, ih h.2⟩
      intro b hb
      rw [(insertDescBy_perm key x ys).mem_iff, List.mem_cons] at hb
      rcases hb with rfl | hb
      · exact le_of_lt hgt
      · exact h.1 b hb
    · rename_i hle
      push_neg at hle
      refine List.pairwise_cons.2 ⟨?_, List.pairwise_cons.2 h⟩
      intro b hb
      rw [List.mem_cons] at hb
      rcases hb with rfl | hb
      · exact hle
      · exact le_trans (h.1 b hb) hle

theorem sortDescBy_sorted (key : α → ℚ) (l : List α) :
    (sortDescBy key l).Pairwise fun a b => key b ≤ key a := by
  induction l with
  | nil => exact List.Pairwise.nil
  | cons x xs ih => exact insertDescBy_pairwise key x ih

theorem filter_insertDescBy_pos (key : α → ℚ) (x : α) (l : List α) (k : ℚ)
    (hx : key x = k) :
    (insertDescBy key x l).filter (fun a => decide (key a = k)) =
      x :: l.filter (fun a => decide (key a = k)) := by
  induction l with
  | nil => simp [insertDescBy, hx]
  | cons y ys ih =>
    unfold insertDescBy
    split
    · rename_i hgt
      have hy : ¬ key y = k := by
        rw [← hx]
        exact (ne_of_gt hgt)
      simp [List.filter_cons, hy, ih]
    · simp [List.filter_cons, hx]

theorem filter_insertDescBy_neg (key : α → ℚ) (x : α) (l : List α) (k : ℚ)
    (hx : ¬ key x = k) :
    (insertDescBy key x l).filter (fun a => decide (key a = k)) =
      l.filter (fun a => decide (key a = k)) := by
  induction l with
  | nil => simp [insertDescBy, hx]
  | cons y ys ih =>
    unfold insertDescBy
    split
    · simp [List.filter_cons, ih]
    · simp [List.filter_cons, hx]

theorem sortDescBy_filter (key : α → ℚ) (l : List α) (k : ℚ) :
    (sortDescBy key l).filter (fun a => decide (key a = k)) =
      l.filter (fun a => decide (key a = k)) := by
  induction l with
  | nil => rfl
  | cons x xs ih =>
    show (insertDescBy key x (sortDescBy key xs)).filter _ = _
    by_cases hx : key x = k
    · rw [filter_insertDescBy_pos key x (sortDescBy key xs) k hx, ih]
      simp [List.filter_cons, hx]
    · rw [filter_insertDescBy_neg key x (sortDescBy key xs) k hx, ih]
      simp [List.filter_cons, hx]

theorem sortDescBy_head_max (key : α → ℚ) {l : List α} {h : α} {t : List α}
    (e : sortDescBy key l = h :: t) : ∀ a ∈ l, key a ≤ key h := by
  intro a ha
  rw [← mem_sortDescBy key, e, List.mem_cons] at ha
  rcases ha with rfl | ha
  · exact le_refl _
  · have hs := sortDescBy_sorted key l
    rw [e, List.pairwise_cons] at hs
    exact hs.1 a ha

/-! ## Cache store

Two cache modules exist in the repository and are modelled separately:
`lib/api/cache.ts` (src/unnamed/part_005; here namespace `ApiCache`, the
module `withCache` lives in) and `src/lib/cache.ts` (here `LibCache`). -/

/-- The `APISource` enum of `@/types`; its five values are those enumerated by
`CACHE_TTL_HOURS` in src/lib/cache.ts. -/
inductive APISource
  | hud
  | bea
  | bls
  | eia
  | census
deriving DecidableEq, Repr

/-- Modelled from the spec: `DEFAULT_CACHE_TTL` of `@/types` is not under
`src/`. Section 4.1 fixes the per-source TTL policy: about 30 days for the
annual feeds (rent, price parity, census) and about 7 days for the monthly
feeds (price index, energy); values in seconds. -/
def DEFAULT_CACHE_TTL : APISource → ℕ
  | .hud => 2592000
  | .bea => 2592000
  | .bls => 604800
  | .eia => 604800
  | .census => 2592000

/-- The `CacheConfig` passed to src/unnamed/part_005 `setCachedData`:
a source and an optional TTL override in seconds. -/
structure CacheConfig where
  source : APISource
  ttlSeconds : Option ℕ
deriving DecidableEq, Repr

/-- Model of `config.ttlSeconds || DEFAULT_CACHE_TTL[config.source]`:
`0` is falsy in JavaScript, so a zero override also falls back. -/
def CacheConfig.resolveTtl (config : CacheConfig) : ℕ :=
  match config.ttlSeconds with
  | some t => if t = 0 then DEFAULT_CACHE_TTL config.source else t
  | none => DEFAULT_CACHE_TTL config.source

/-- One row of the `api_cache` table as src/unnamed/part_005 reads it:
`data`, `created_at`, `expires_at` (timestamps in milliseconds). -/
structure CacheRow (α : Type) where
  data : α
  created_at : ℤ
  expires_at : ℤ
deriving DecidableEq, Repr

/-- The `api_cache` table with its unique constraint on
`(source, location_key)`: at most one row per key pair. -/
def CacheStore (α : Type) := APISource → String → Option (CacheRow α)

namespace ApiCache

/-- Model of `getCachedData` (src/unnamed/part_005, lines 20-53): query the
row for `(source, locationKey)` with `expires_at > now`; on a hit return the
payload and `cacheAge = Math.floor((Date.now() - created_at) / 1000)`; on any
miss, error, or expired row return `null`. -/
def getCachedData (store : CacheStore α) (source : APISource) (locationKey : String)
    (now : ℤ) : Option (α × ℤ) :=
  match store source locationKey with
  | none => none
  | some row =>
    if row.expires_at > now then some (row.data, (now - row.created_at) / 1000)
    else none

/-- Model of `setCachedData` (src/unnamed/part_005, lines 58-96): refuse
`null`/`undefined` payloads, otherwise upsert the row keyed on
`(config.source, cacheKey)` with `expires_at = now + ttl * 1000` and
`created_at = now`. -/
def setCachedData (store : CacheStore α) (cacheKey : String) (data : Option α)
    (config : CacheConfig) (now : ℤ) : CacheStore α :=
  match data with
  | none => store
  | some d =>
    fun s k =>
      if s = config.source ∧ k = cacheKey then
        some ⟨d, now, now + (config.resolveTtl : ℤ) * 1000⟩
      else store s k

/-- The `{ data, cached, cacheAge? }` envelope returned by `withCache`. -/
structure CachedFetch (α : Type) where
  data : Option α
  cached : Bool
  cacheAge : Option ℤ
deriving DecidableEq, Repr

/-- Model of `withCache` (src/unnamed/part_005, lines 131-162): try the cache
first and report `cached = true` with the entry's age on a hit; on a miss
return the fetched value with `cached = false` and write it through
(`setCachedData` itself refuses a null payload). `fetched` stands for the
value `await fetchFn()` resolves to. -/
def withCache (store : CacheStore α) (cacheKey : String) (config : CacheConfig)
    (fetched : Option α) (now : ℤ) : CachedFetch α × CacheStore α :=
  match getCachedData store config.source cacheKey now with
  | some (d, age) => (⟨some d, true, some age⟩, store)
  | none => (⟨fetched, false, none⟩, setCachedData store cacheKey fetched config now)

end ApiCache

namespace LibCache

/-- The `expires_at` column as `src/lib/cache.ts` reads it: `new Date(text)`
either parses to a timestamp or is invalid (`isNaN(getTime())`), which models
a malformed row. -/
inductive ExpiresStamp
  | valid (t : ℤ)
  | invalid
deriving DecidableEq, Repr

/-- Model of `isCacheValid` (src/lib/cache.ts, lines 352-371): an invalid
expiration date is never valid; otherwise the entry is valid while
`expirationDate > now` (strictly). -/
def isCacheValid (expiresAt : ExpiresStamp) (now : ℤ) : Bool :=
  match expiresAt with
  | .valid t => t > now
  | .invalid => false

/-- A row of the `.select("data, expires_at")` query in src/lib/cache.ts. -/
structure DbRow (α : Type) where
  data : α
  expires_at : ExpiresStamp
deriving DecidableEq, Repr

/-- The settled supabase response `{ data, error }` of the `.single()` query:
a store error (with its code), or a row that may be absent. -/
inductive DbResult (α : Type)
  | failure (code : String)
  | success (row : Option (DbRow α))
deriving DecidableEq, Repr

/-- Model of `isValidAPISource` (src/lib/cache.ts, lines 65-67): membership in
the enum, which every value of the `APISource` type has. -/
def isValidAPISource : APISource → Bool := fun _ => true

/-- Model of `getCachedData` (src/lib/cache.ts, lines 94-158): validate the
inputs, then settle the store query; every store error, missing row, or
invalid/expired expiration yields `null`, and only a present, valid, unexpired
row yields its payload. The surrounding `try`/`catch` (returning `null`) makes
the original total; this function is total by construction. -/
def getCachedData (source : APISource) (locationKey : String) (db : DbResult α)
    (now : ℤ) : Option α :=
  if ¬ isValidAPISource source then none
  else if locationKey = "" then none
  else
    match db with
    | .failure _ => none
    | .success none => none
    | .success (some row) =>
      if isCacheValid row.expires_at now then some row.data else none

end LibCache

/-! ## Rate limiter (src/lib/api/rate-limit.ts) -/

/-- `RateLimitConfig` (src/lib/api/rate-limit.ts, lines 23-26). -/
structure RateLimitConfig where
  windowMs : ℤ
  maxRequests : ℕ
deriving DecidableEq, Repr

/-- `RateLimitEntry` (src/lib/api/rate-limit.ts, lines 5-8): one bucket of the
in-memory store. -/
structure RateLimitEntry where
  count : ℕ
  resetTime : ℤ
deriving DecidableEq, Repr

/-- `RateLimitResult` (src/lib/api/rate-limit.ts, lines 28-33). -/
structure RateLimitResult where
  allowed : Bool
  remaining : ℤ
  resetTime : ℤ
  retryAfter : Option ℤ
deriving DecidableEq, Repr

/-- `Math.ceil(d / 1000)` for an integer `d` (Lean division on `ℤ` rounds
down, so the ceiling is the negated floor of the negation). -/
def ceilDiv1000 (d : ℤ) : ℤ := -(-d / 1000)

/-- Model of `checkRateLimit` (src/lib/api/rate-limit.ts, lines 38-77) for one
identifier: the bucket stored for it (if any) and the current time determine
the result and the bucket stored afterwards. A missing or elapsed bucket
(`resetTime < now`) is replaced by a fresh one with `count = 1`; a bucket at
`count ≥ maxRequests` rejects and is returned untouched; otherwise the count
is incremented. -/
def checkRateLimit (entry : Option RateLimitEntry) (config : RateLimitConfig)
    (now : ℤ) : RateLimitResult × RateLimitEntry :=
  match entry with
  | none =>
    (⟨true, (config.maxRequests : ℤ) - 1, now + config.windowMs, none⟩,
     ⟨1, now + config.windowMs⟩)
  | some e =>
    if e.resetTime < now then
      (⟨true, (config.maxRequests : ℤ) - 1, now + config.windowMs, none⟩,
       ⟨1, now + config.windowMs⟩)
    else if e.count ≥ config.maxRequests then
      (⟨false, 0, e.resetTime, some (ceilDiv1000 (e.resetTime - now))⟩, e)
    else
      (⟨true, (config.maxRequests : ℤ) - (e.count + 1), e.resetTime, none⟩,
       ⟨e.count + 1, e.resetTime⟩)

/-- The bucket stored for one identifier after `k` calls to `checkRateLimit`
at times `t 0, …, t (k-1)`, starting from no bucket. -/
def bucketAfter (config : RateLimitConfig) (t : ℕ → ℤ) : ℕ → Option RateLimitEntry
  | 0 => none
  | k + 1 => some (checkRateLimit (bucketAfter config t k) config (t k)).2

/-- The result of call `k + 1` (zero-indexed `k`) in that sequence. -/
def resultAt (config : RateLimitConfig) (t : ℕ → ℤ) (k : ℕ) : RateLimitResult :=
  (checkRateLimit (bucketAfter config t k) config (t k)).1

/-! ## BEA Regional Price Parity (src/lib/api/bea.ts) -/

/-- Modelled from the spec: `RPPLineCode` of `@/types` is not under `src/`;
the call sites in src/lib/api/bea.ts request `LineCode: "1,2,3,4"`, commented
as all items, goods, rents, other services, and `parseBEAResponse` switches on
those four cases (any other line code leaves the record untouched). -/
inductive RPPLineCode
  | allItems
  | goods
  | servicesRents
  | servicesOther
  | other
deriving DecidableEq, Repr

/-- One raw row of the BEA response as `parseBEAResponse` reads it.
`DataValue` models `parseFloat(item.DataValue)`: `none` is `NaN` (an
unparseable string), which the parser skips. -/
structure BEADataItem where
  TimePeriod : String
  GeoFips : String
  GeoName : String
  DataValue : Option ℚ
  LineCode : RPPLineCode
deriving DecidableEq, Repr

/-- `response.BEAAPI?.Results?.Data`: `none` models the whole optional chain
being absent. -/
structure BEAAPIResponse where
  Data : Option (List BEADataItem)
deriving DecidableEq, Repr

/-- `STATE_FIPS_TO_CODE` (src/lib/api/bea.ts, lines 10-22). -/
def STATE_FIPS_TO_CODE : List (String × String) :=
  [("01", "AL"), ("02", "AK"), ("04", "AZ"), ("05", "AR"), ("06", "CA"),
   ("08", "CO"), ("09", "CT"), ("10", "DE"), ("11", "DC"), ("12", "FL"),
   ("13", "GA"), ("15", "HI"), ("16", "ID"), ("17", "IL"), ("18", "IN"),
   ("19", "IA"), ("20", "KS"), ("21", "KY"), ("22", "LA"), ("23", "ME"),
   ("24", "MD"), ("25", "MA"), ("26", "MI"), ("27", "MN"), ("28", "MS"),
   ("29", "MO"), ("30", "MT"), ("31", "NE"), ("32", "NV"), ("33", "NH"),
   ("34", "NJ"), ("35", "NM"), ("36", "NY"), ("37", "NC"), ("38", "ND"),
   ("39", "OH"), ("40", "OK"), ("41", "OR"), ("42", "PA"), ("44", "RI"),
   ("45", "SC"), ("46", "SD"), ("47", "TN"), ("48", "TX"), ("49", "UT"),
   ("50", "VT"), ("51", "VA"), ("53", "WA"), ("54", "WV"), ("55", "WI"),
   ("56", "WY")]

/-- The (partial) `RegionalPriceParity` record built by `parseBEAResponse`:
every measured field is optional until filled in, `rank` is assigned only
after sorting. The requested year is kept as its string (the source applies
`parseInt`, injective on the four-digit year strings used). -/
structure RegionalPriceParity where
  geoFips : String
  geoName : String
  stateCode : Option String
  year : String
  overall : Option ℚ
  percentAboveNational : Option ℚ
  goods : Option ℚ
  servicesRents : Option ℚ
  servicesOther : Option ℚ
  housing : Option ℚ
  rank : Option ℕ
deriving DecidableEq, Repr

/-- The fresh record `parseBEAResponse` creates on first sight of a
geography. -/
def initRPP (item : BEADataItem) (year : String) : RegionalPriceParity :=
  { geoFips := item.GeoFips
    geoName := item.GeoName
    stateCode := STATE_FIPS_TO_CODE.lookup (takeChars 2 item.GeoFips)
    year := year
    overall := none
    percentAboveNational := none
    goods := none
    servicesRents := none
    servicesOther := none
    housing := none
    rank := none }

/-- The `switch (item.LineCode)` of `parseBEAResponse`: rents fill both
`servicesRents` and `housing`; all-items also derives
`percentAboveNational = value - 100`. -/
def applyLine (rpp : RegionalPriceParity) (item : BEADataItem) (value : ℚ) :
    RegionalPriceParity :=
  match item.LineCode with
  | .allItems => { rpp with overall := some value, percentAboveNational := some (value - 100) }
  | .goods => { rpp with goods := some value }
  | .servicesRents => { rpp with servicesRents := some value, housing := some value }
  | .servicesOther => { rpp with servicesOther := some value }
  | .other => rpp

/-- One iteration of the parse loop: skip rows of other years and `NaN`
values, create the record on first sight of a geography (a JavaScript `Map`
keeps insertion order, modelled by appending), then apply the line. -/
def parseStep (year : String) (m : List (String × RegionalPriceParity))
    (item : BEADataItem) : List (String × RegionalPriceParity) :=
  if item.TimePeriod ≠ year then m
  else
    match item.DataValue with
    | none => m
    | some value =>
      let m1 := if (m.lookup item.GeoFips).isSome then m
                else m ++ [(item.GeoFips, initRPP item year)]
      m1.map fun p => if p.1 = item.GeoFips then (p.1, applyLine p.2 item value) else p

/-- Model of `parseBEAResponse` (src/lib/api/bea.ts, lines 50-98): bucket the
raw rows of the requested year by geography id, in first-occurrence order. -/
def parseBEAResponse (response : BEAAPIResponse) (year : String) :
    List (String × RegionalPriceParity) :=
  match response.Data with
  | none => []
  | some items => items.foldl (parseStep year) []

/-- The sort key `b.overall - a.overall` compares records by their `overall`
value; past the `overall !== undefined` filter it is always present. -/
def rppOverallKey (r : RegionalPriceParity) : ℚ := r.overall.getD 0

/-- Assign ranks `n + 1, n + 2, …` down a list (`rpp.rank = index + 1`). -/
def addRanksFrom : ℕ → List RegionalPriceParity → List RegionalPriceParity
  | _, [] => []
  | n, r :: rs => { r with rank := some (n + 1) } :: addRanksFrom (n + 1) rs

/-- Sort by overall RPP descending and add 1-based ranks: the shared tail of
the fetch functions in `getRPPAllStates` and `getRPPAllMetros`
(src/lib/api/bea.ts, lines 151-154 and 203-206). -/
def rankRPP (l : List RegionalPriceParity) : List RegionalPriceParity :=
  addRanksFrom 0 (sortDescBy rppOverallKey l)

/-- The complete records of a parsed response: those with `overall` present,
in bucket order. -/
def completedRPP (response : BEAAPIResponse) (year : String) :
    List RegionalPriceParity :=
  ((parseBEAResponse response year).map Prod.snd).filter fun r => r.overall.isSome

/-- The body of the fetch function of `getRPPAllStates` (src/lib/api/bea.ts,
lines 128-156) after the response arrives: parse the rows of the requested
year, keep complete records, sort and rank. -/
def getRPPAllStatesCore (response : BEAAPIResponse) (year : String) :
    List RegionalPriceParity :=
  rankRPP (completedRPP response year)

/-- `getRPPAllStates` issues exactly one upstream query, for
`Year: String(dataYear)`, and processes that single response. -/
def getRPPAllStatesFetch (upstream : String → BEAAPIResponse) (dataYear : String) :
    List RegionalPriceParity :=
  getRPPAllStatesCore (upstream dataYear) dataYear

/-- Model of the year-selection of the generation script
(src/scripts/generate-state-col-data.ts, lines 299-310): fetch the requested
year; only when that fetch throws, fetch exactly one prior year. -/
def scriptFetchYear {ρ : Type} (fetchBEA : ℤ → Except String ρ) (dataYear : ℤ) :
    Except String (ℤ × ρ) :=
  match fetchBEA dataYear with
  | .ok r => .ok (dataYear, r)
  | .error _ =>
    match fetchBEA (dataYear - 1) with
    | .ok r => .ok (dataYear - 1, r)
    | .error e => .error e

theorem addRanksFrom_length (n : ℕ) (l : List RegionalPriceParity) :
    (addRanksFrom n l).length = l.length := by
  induction l generalizing n with
  | nil => rfl
  | cons r rs ih => simp [addRanksFrom, ih]

theorem addRanksFrom_get (n : ℕ) (l : List RegionalPriceParity) (i : ℕ)
    (h : i < (addRanksFrom n l).length) :
    ((addRanksFrom n l).get ⟨i, h⟩).rank = some (n + i + 1) := by
  induction l generalizing n i with
  | nil => cases h
  | cons r rs ih =>
    cases i with
    | zero => rfl
    | succ i =>
      have := ih (n + 1) i (by simpa [addRanksFrom, addRanksFrom_length] using h)
      simpa [addRanksFrom, Nat.add_assoc, Nat.add_comm, Nat.add_left_comm] using this

theorem addRanksFrom_key_mem (n : ℕ) (l : List RegionalPriceParity)
    (b : RegionalPriceParity) (hb : b ∈ addRanksFrom n l) :
    ∃ c ∈ l, rppOverallKey b = rppOverallKey c := by
  induction l generalizing n with
  | nil => cases hb
  | cons r rs ih =>
    rw [addRanksFrom, List.mem_cons] at hb
    rcases hb with rfl | hb
    · exact ⟨r, List.mem_cons_self r rs, rfl⟩
    · obtain ⟨c, hc, he⟩ := ih (n + 1) hb
      exact ⟨c, List.mem_cons_of_mem r hc, he⟩

theorem addRanksFrom_pairwise (n : ℕ) {l : List RegionalPriceParity}
    (h : l.Pairwise fun a b => rppOverallKey b ≤ rppOverallKey a) :
    (addRanksFrom n l).Pairwise fun a b => rppOverallKey b ≤ rppOverallKey a := by
  induction l generalizing n with
  | nil => exact List.Pairwise.nil
  | cons r rs ih =>
    rw [List.pairwise_cons] at h
    refine List.pairwise_cons.2 ⟨?_, ih (n + 1) h.2⟩
    intro b hb
    obtain ⟨c, hc, he⟩ := addRanksFrom_key_mem (n + 1) rs b hb
    exact he.le.trans (h.1 c hc)

/-- A complete record carrying only an overall value, for concrete batches. -/
def demoRPP (geo : String) (v : ℚ) : RegionalPriceParity :=
  ⟨geo, geo, none, "2023", some v, none, none, none, none, none, none⟩

/-- One raw 2022 row, used by the prior-year counterexample. -/
def demoItem2022 : BEADataItem := ⟨"2022", "06000", "California", some 110, .allItems⟩

/-- A demo upstream for which rows exist for the year 2022 only. -/
def demoUpstream : String → BEAAPIResponse := fun year =>
  if year = "2022" then ⟨some [demoItem2022]⟩ else ⟨some []⟩

/-! ## HUD crosswalk and Fair Market Rent (src/lib/api/hud.ts) -/

/-- One row of the `zip_to_cbsa` crosswalk table, as the queries select it. -/
structure CrosswalkRow where
  zip_code : String
  cbsa_code : String
  cbsa_name : String
  residential_ratio : ℚ
deriving DecidableEq, Repr

/-- The `CBSACrosswalkResult` of src/lib/api/hud.ts (lines 34-41). -/
structure CBSACrosswalkResult where
  cbsaCode : String
  cbsaName : String
  cityName : String
  stateCode : String
  residentialRatio : ℚ
  isSplitZip : Bool
deriving DecidableEq, Repr

/-- The sort key of the crosswalk queries. -/
def crosswalkRatio (r : CrosswalkRow) : ℚ := r.residential_ratio

/-- The supabase query of `getMetroCodeForZip`: all rows of the ZIP, ordered
by `residential_ratio` descending. -/
def zipRows (table : List CrosswalkRow) (zipCode : String) : List CrosswalkRow :=
  sortDescBy crosswalkRatio (table.filter fun r => decide (r.zip_code = zipCode))

/-- `nameParts[0]?.trim() || 'Unknown'` of a CBSA name `"City Name, ST"`. -/
def parseCityName (name : String) : String :=
  let c := jsTrim ((splitComma name).getD 0 "")
  if c = "" then "Unknown" else c

/-- `nameParts[1]?.trim() || ''` of a CBSA name. -/
def parseStateCode (name : String) : String := jsTrim ((splitComma name).getD 1 "")

/-- Model of `getMetroCodeForZip` (src/lib/api/hud.ts, lines 47-86): the
primary CBSA is the first row of the ratio-descending query (the maximal
ratio); `isSplitZip` iff more than one row exists; `none` (not an error) when
the ZIP has no rows. -/
def getMetroCodeForZip (table : List CrosswalkRow) (zipCode : String) :
    Option CBSACrosswalkResult :=
  match zipRows table zipCode with
  | [] => none
  | primary :: rest =>
    some { cbsaCode := primary.cbsa_code
           cbsaName := primary.cbsa_name
           cityName := parseCityName primary.cbsa_name
           stateCode := parseStateCode primary.cbsa_name
           residentialRatio := primary.residential_ratio
           isSplitZip := decide (1 < (primary :: rest).length) }

/-- The result record `getNearbyMetros` builds for each kept row. -/
def mkNearbyResult (row : CrosswalkRow) : CBSACrosswalkResult :=
  { cbsaCode := row.cbsa_code
    cbsaName := row.cbsa_name
    cityName := parseCityName row.cbsa_name
    stateCode := parseStateCode row.cbsa_name
    residentialRatio := row.residential_ratio
    isSplitZip := false }

/-- The candidate rows of the `getNearbyMetros` query:
`.like('cbsa_name', '%stateCode%')` and `.neq('cbsa_code', primary code)`. -/
def nearbyCandidates (table : List CrosswalkRow) (primary : CBSACrosswalkResult) :
    List CrosswalkRow :=
  table.filter fun r =>
    containsSubstring r.cbsa_name primary.stateCode && decide (r.cbsa_code ≠ primary.cbsaCode)

/-- The dedupe loop of `getNearbyMetros` (src/lib/api/hud.ts, lines 396-412):
keep the first row of each CBSA code, adding only while fewer than `limit`
rows are kept. -/
def dedupeByCbsa (limit : ℕ) : List CrosswalkRow → List String → ℕ → List CrosswalkRow
  | [], _, _ => []
  | row :: rest, seen, n =>
    if row.cbsa_code ∉ seen ∧ n < limit then
      row :: dedupeByCbsa limit rest (row.cbsa_code :: seen) (n + 1)
    else dedupeByCbsa limit rest seen n

/-- Model of `getNearbyMetros` (src/lib/api/hud.ts, lines 372-419): resolve
the primary metro (an unresolvable ZIP yields `[]`); query candidates by name
substring and different code, ratio-descending, limited to `limit * 3` rows;
dedupe by CBSA code keeping at most `limit` results. -/
def getNearbyMetros (table : List CrosswalkRow) (zipCode : String) (limit : ℕ) :
    List CBSACrosswalkResult :=
  match getMetroCodeForZip table zipCode with
  | none => []
  | some primary =>
    let pref := (sortDescBy crosswalkRatio (nearbyCandidates table primary)).take (limit * 3)
    (dedupeByCbsa limit pref [] 0).map mkNearbyResult

/-- A per-item entry of the batch result of `fetchMultipleFairMarketRents`. -/
structure FMRItemResult (α : Type) where
  zipCode : String
  data : Option α
  error : Option String
deriving DecidableEq, Repr

/-- Model of `fetchMultipleFairMarketRents` (src/lib/api/hud.ts, lines
293-310): dispatch every ZIP's lookup independently and catch each failure
into its own item, so `Promise.all` never rejects. `lookup` stands for
`fetchFairMarketRents`, which either resolves with data or throws a message.
-/
def fetchMultipleFairMarketRents {α : Type} (lookup : String → Except String α)
    (zipCodes : List String) : List (FMRItemResult α) :=
  zipCodes.map fun zip =>
    match lookup zip with
    | .ok d => ⟨zip, some d, none⟩
    | .error e => ⟨zip, none, some e⟩

/-- The responses the multi-ZIP branch of `GET /api/hud` can produce. -/
inductive HudBatchResponse (α : Type)
  | invalidZip (invalidZips : List String)
  | tooManyZips
  | batch (results : List (FMRItemResult α))
deriving DecidableEq, Repr

/-- The `success` flag of the route's JSON envelope: `true` exactly on the
batch response (status 200), `false` on both 400 rejections. -/
def HudBatchResponse.success {α : Type} : HudBatchResponse α → Bool
  | .batch _ => true
  | _ => false

/-- Model of the multi-ZIP branch of `GET /api/hud` (the route file, lines
313-457 of its source): validate every ZIP's format first, then reject
batches above 20 ZIPs, and only then dispatch the per-item lookups. The
single-ZIP branch (`zipCodes.length === 1`) is a separate path not modelled
here. -/
def hudBatchRoute {α : Type} (lookup : String → Except String α)
    (zipCodes : List String) : HudBatchResponse α :=
  if (zipCodes.filter fun z => ! validateZipCode z) ≠ [] then
    .invalidZip (zipCodes.filter fun z => ! validateZipCode z)
  else if 20 < zipCodes.length then .tooManyZips
  else .batch (fetchMultipleFairMarketRents lookup zipCodes)

theorem dedupeByCbsa_of_limit_le (limit : ℕ) (l : List CrosswalkRow)
    (seen : List String) (n : ℕ) (h : ¬ n < limit) :
    dedupeByCbsa limit l seen n = [] := by
  induction l generalizing seen with
  | nil => rfl
  | cons row rest ih =>
    rw [dedupeByCbsa, if_neg (by tauto)]
    exact ih seen

theorem dedupeByCbsa_sublist (limit : ℕ) (l : List CrosswalkRow)
    (seen : List String) (n : ℕ) : List.Sublist (dedupeByCbsa limit l seen n) l := by
  induction l generalizing seen n with
  | nil => exact List.Sublist.refl []
  | cons row rest ih =>
    rw [dedupeByCbsa]
    split
    · exact List.Sublist.cons₂ row (ih _ _)
    · exact List.Sublist.cons row (ih _ _)

theorem dedupeByCbsa_mem (limit : ℕ) {l : List CrosswalkRow} {seen : List String}
    {n : ℕ} {r : CrosswalkRow} (h : r ∈ dedupeByCbsa limit l seen n) : r ∈ l :=
  (dedupeByCbsa_sublist limit l seen n).mem h

theorem dedupeByCbsa_code_notin (limit : ℕ) (l : List CrosswalkRow)
    (seen : List String) (n : ℕ) (r : CrosswalkRow)
    (h : r ∈ dedupeByCbsa limit l seen n) : r.cbsa_code ∉ seen := by
  induction l generalizing seen n with
  | nil => cases h
  | cons row rest ih =>
    rw [dedupeByCbsa] at h
    split at h
    · rename_i hc
      rw [List.mem_cons] at h
      rcases h with rfl | h
      · exact hc.1
      · have := ih _ _ h
        intro hmem
        exact this (List.mem_cons_of_mem _ hmem)
    · exact ih _ _ h

theorem dedupeByCbsa_pairwise_codes (limit : ℕ) (l : List CrosswalkRow)
    (seen : List String) (n : ℕ) :
    (dedupeByCbsa limit l seen n).Pairwise fun a b => a.cbsa_code ≠ b.cbsa_code := by
  induction l generalizing seen n with
  | nil => exact List.Pairwise.nil
  | cons row rest ih =>
    rw [dedupeByCbsa]
    split
    · refine List.pairwise_cons.2 ⟨?_, ih _ _⟩
      intro b hb
      have := dedupeByCbsa_code_notin limit rest _ _ b hb
      intro he
      exact this (he ▸ List.mem_cons_self _ _)
    · exact ih _ _

theorem dedupeByCbsa_length (limit : ℕ) (l : List CrosswalkRow)
    (seen : List String) (n : ℕ) :
    (dedupeByCbsa limit l seen n).length ≤ limit - n := by
  induction l generalizing seen n with
  | nil => simp [dedupeByCbsa]
  | cons row rest ih =>
    rw [dedupeByCbsa]
    split
    · rename_i hc
      have := ih (row.cbsa_code :: seen) (n + 1)
      have hn : n < limit := hc.2
      simp only [List.length_cons]
      omega
    · exact ih seen n

theorem dedupeByCbsa_dominates (limit : ℕ) (l : List CrosswalkRow)
    (seen : List String) (n : ℕ)
    (hs : l.Pairwise fun a b => crosswalkRatio b ≤ crosswalkRatio a) :
    ∀ r ∈ dedupeByCbsa limit l seen n, ∀ s ∈ l,
      s.cbsa_code = r.cbsa_code → s.residential_ratio ≤ r.residential_ratio := by
  induction l generalizing seen n with
  | nil => intro r hr; cases hr
  | cons row rest ih =>
    rw [List.pairwise_cons] at hs
    intro r hr s hsmem hcode
    rw [dedupeByCbsa] at hr
    split at hr
    · rename_i hc
      rw [List.mem_cons] at hr
      rcases hr with rfl | hr
      · rw [List.mem_cons] at hsmem
        rcases hsmem with rfl | hsmem
        · exact le_refl _
        · exact hs.1 s hsmem
      · rw [List.mem_cons] at hsmem
        rcases hsmem with rfl | hsmem
        · exfalso
          have := dedupeByCbsa_code_notin limit rest _ _ r hr
          exact this (hcode ▸ List.mem_cons_self _ _)
        · exact ih _ _ hs.2 r hr s hsmem hcode
    · by_cases hn : n < limit
      · rw [List.mem_cons] at hsmem
        rcases hsmem with rfl | hsmem
        · exfalso
          rename_i hc
          have hseen : s.cbsa_code ∈ seen := by
            by_contra hns
            exact hc ⟨hns, hn⟩
          exact dedupeByCbsa_code_notin limit rest seen n r hr (hcode ▸ hseen)
        · exact ih _ _ hs.2 r hr s hsmem hcode
      · rw [dedupeByCbsa_of_limit_le limit rest seen n hn] at hr
        cases hr

/-! ## Claim theorems: BEA price parity -/

/-- C4. The batch returned by a price-parity fetch is sorted by `overall`
descending; each entry's rank is its 1-based position in that order; the batch
keeps its size; the sort is stable (elements of any fixed key keep their input
order); and the batch with overall values `[110, 95, 100]` gets ranks
`[1, 3, 2]` respectively (the 110-entry first, then the 100-entry, then the
95-entry). -/
theorem rpp_rank_assignment (l : List RegionalPriceParity) :
    (rankRPP l).Pairwise (fun a b => rppOverallKey b ≤ rppOverallKey a) ∧
    (∀ i (h : i < (rankRPP l).length), ((rankRPP l).get ⟨i, h⟩).rank = some (i + 1)) ∧
    (rankRPP l).length = l.length ∧
    (∀ k : ℚ, (sortDescBy rppOverallKey l).filter (fun r => decide (rppOverallKey r = k)) =
      l.filter (fun r => decide (rppOverallKey r = k))) ∧
    rankRPP [demoRPP "06000" 110, demoRPP "48000" 95, demoRPP "36000" 100] =
      [{ demoRPP "06000" 110 with rank := some 1 },
       { demoRPP "36000" 100 with rank := some 2 },
       { demoRPP "48000" 95 with rank := some 3 }] := by
  refine ⟨?_, ?_, ?_, ?_, ?_⟩
  · exact addRanksFrom_pairwise 0 (sortDescBy_sorted rppOverallKey l)
  · intro i h
    simpa using addRanksFrom_get 0 (sortDescBy rppOverallKey l) i h
  · rw [rankRPP, addRanksFrom_length, sortDescBy_length]
  · exact fun k => sortDescBy_filter rppOverallKey l k
  · decide

/-- C5 (amended). The library price-parity fetcher performs no prior-year
retry: its single attempt parses only rows of the requested year, so a
response with no such rows yields the empty batch (no failure, no second
query). The prior-year retry exists only in the generation script, and fires
only when the fetch for the requested year throws: the script then fetches
exactly the one prior year. -/
theorem rpp_single_attempt_no_retry (response : BEAAPIResponse) (year : String)
    (h : ∀ item ∈ response.Data.getD [], item.TimePeriod ≠ year) :
    getRPPAllStatesCore response year = [] ∧
    ∀ {ρ : Type} (fetchBEA : ℤ → Except String ρ) (y : ℤ) (e : String),
      fetchBEA y = .error e →
      scriptFetchYear fetchBEA y =
        Except.map (fun r => (y - 1, r)) (fetchBEA (y - 1)) := by
  constructor
  · have hfold : ∀ (its : List BEADataItem) (m : List (String × RegionalPriceParity)),
        (∀ item ∈ its, item.TimePeriod ≠ year) → its.foldl (parseStep year) m = m := by
      intro its
      induction its with
      | nil => intro m _; rfl
      | cons it its ih =>
        intro m hm
        have h1 : parseStep year m it = m := by
          simp [parseStep, hm it (List.mem_cons_self it its)]
        rw [List.foldl_cons, h1]
        exact ih m fun i hi => hm i (List.mem_cons_of_mem it hi)
    have hparse : parseBEAResponse response year = [] := by
      match response with
      | ⟨none⟩ => rfl
      | ⟨some items⟩ => exact hfold items [] (by simpa using h)
    rw [getRPPAllStatesCore, completedRPP, hparse]
    rfl
  · intro ρ fetchBEA y e he
    unfold scriptFetchYear
    rw [he]
    cases h2 : fetchBEA (y - 1) <;> simp [Except.map]

/-- Witness for C5 (amended) at a concrete input: a response whose only row is
for 2022, parsed for the requested year 2023, yields the empty batch, and a
concrete failing fetch makes the script fetch the prior year. -/
theorem rpp_single_attempt_no_retry_witness :
    getRPPAllStatesCore ⟨some [demoItem2022]⟩ "2023" = [] ∧
    scriptFetchYear (fun y => if y = 2023 then .error "no data" else .ok y) 2023 =
      .ok (2022, 2022) :=
  ⟨(rpp_single_attempt_no_retry ⟨some [demoItem2022]⟩ "2023"
      (by intro item hi; simp at hi; subst hi; decide)).1,
   by
    have h2 := (rpp_single_attempt_no_retry ⟨some [demoItem2022]⟩ "2023"
        (by intro item hi; simp at hi; subst hi; decide)).2
      (fun y : ℤ => if y = 2023 then Except.error "no data" else Except.ok y) 2023
      "no data" rfl
    rw [h2]
    rfl⟩

/-- Counterexample to C5 as stated: against an upstream that has rows for 2022
only, the fetch for 2023 returns the empty batch from its single attempt —
it neither fails nor retries the prior year, although fetching 2022 would have
produced a non-empty batch. -/
theorem rpp_no_prior_year_retry_counter :
    getRPPAllStatesFetch demoUpstream "2023" = [] ∧
    getRPPAllStatesFetch demoUpstream "2022" ≠ [] := by
  refine ⟨?_, ?_⟩ <;> decide

/-! ## EIA energy prices (src/unnamed/part_006 = lib/api/eia.ts) -/

/-- `STATE_NAME_TO_CODE` (src/unnamed/part_006, lines 14-28). -/
def STATE_NAME_TO_CODE : List (String × String) :=
  [("Alabama", "AL"), ("Alaska", "AK"), ("Arizona", "AZ"), ("Arkansas", "AR"),
   ("California", "CA"), ("Colorado", "CO"), ("Connecticut", "CT"),
   ("Delaware", "DE"), ("District of Columbia", "DC"), ("Florida", "FL"),
   ("Georgia", "GA"), ("Hawaii", "HI"), ("Idaho", "ID"), ("Illinois", "IL"),
   ("Indiana", "IN"), ("Iowa", "IA"), ("Kansas", "KS"), ("Kentucky", "KY"),
   ("Louisiana", "LA"), ("Maine", "ME"), ("Maryland", "MD"),
   ("Massachusetts", "MA"), ("Michigan", "MI"), ("Minnesota", "MN"),
   ("Mississippi", "MS"), ("Missouri", "MO"), ("Montana", "MT"),
   ("Nebraska", "NE"), ("Nevada", "NV"), ("New Hampshire", "NH"),
   ("New Jersey", "NJ"), ("New Mexico", "NM"), ("New York", "NY"),
   ("North Carolina", "NC"), ("North Dakota", "ND"), ("Ohio", "OH"),
   ("Oklahoma", "OK"), ("Oregon", "OR"), ("Pennsylvania", "PA"),
   ("Rhode Island", "RI"), ("South Carolina", "SC"), ("South Dakota", "SD"),
   ("Tennessee", "TN"), ("Texas", "TX"), ("Utah", "UT"), ("Vermont", "VT"),
   ("Virginia", "VA"), ("Washington", "WA"), ("West Virginia", "WV"),
   ("Wisconsin", "WI"), ("Wyoming", "WY")]

/-- `STATE_CODE_TO_NAME`: the entry-swapped inverse, as the source builds it
with `Object.fromEntries`. -/
def STATE_CODE_TO_NAME : List (String × String) :=
  STATE_NAME_TO_CODE.map fun p => (p.2, p.1)

/-- The `EnergyPrices` record of `@/types` as `getEnergyPricesByState` builds
it: the three prices and the optional averages and indices. -/
structure EnergyPrices where
  stateCode : String
  stateName : String
  year : ℤ
  month : ℤ
  electricityPrice : Option ℚ
  naturalGasPrice : Option ℚ
  gasolinePrice : Option ℚ
  electricityNationalAvg : ℚ
  naturalGasNationalAvg : Option ℚ
  gasolineNationalAvg : Option ℚ
  electricityIndex : Option ℚ
  naturalGasIndex : Option ℚ
  gasolineIndex : Option ℚ
deriving DecidableEq, Repr

/-- A settled sub-series: `none` models a rejected promise, `some rec` a
fulfilled `{ data: Record<string, number> }` as an association list. -/
def SettledSeries : Type := Option (List (String × ℚ))

/-- `result?.data?.[upperState]`: the state's price of a settled sub-series. -/
def statePrice (result : Option (List (String × ℚ))) (upperState : String) : Option ℚ :=
  result.bind fun rec => rec.lookup upperState

/-- The sum of `Object.values(rec)`. -/
def recSum (rec : List (String × ℚ)) : ℚ := (rec.map Prod.snd).sum

/-- The count of `Object.values(rec)`. -/
def recCount (rec : List (String × ℚ)) : ℕ := rec.length

/-- `electricityNationalAvg`: the arithmetic mean of the resolved values, `0`
when none resolved. -/
def nationalAvg0 (result : Option (List (String × ℚ))) : ℚ :=
  if 0 < recCount (result.getD []) then
    recSum (result.getD []) / (recCount (result.getD []) : ℚ)
  else 0

/-- `naturalGasNationalAvg` and `gasolineNationalAvg`: the mean, or
`undefined` when none resolved. -/
def nationalAvgOpt (result : Option (List (String × ℚ))) : Option ℚ :=
  if 0 < recCount (result.getD []) then
    some (recSum (result.getD []) / (recCount (result.getD []) : ℚ))
  else none

/-- `electricityIndex`: guarded by `electricityPrice !== undefined` and
`electricityNationalAvg > 0`. -/
def electricityIndexOf (p : Option ℚ) (avg : ℚ) : Option ℚ :=
  match p with
  | some pv => if 0 < avg then some (pv / avg * 100) else none
  | none => none

/-- `naturalGasIndex` and `gasolineIndex`: guarded by JavaScript truthiness of
the price and the average (`0` is falsy) and by `avg > 0`. -/
def truthyIndexOf (p avg : Option ℚ) : Option ℚ :=
  match p, avg with
  | some pv, some av => if pv ≠ 0 ∧ av ≠ 0 ∧ 0 < av then some (pv / av * 100) else none
  | _, _ => none

/-- Model of the fetch body of `getEnergyPricesByState` (src/unnamed/part_006,
lines 315-411) past the `Promise.allSettled`: the three sub-series are settled
independently (a rejection is `none`); the result is `null` exactly when both
the electricity and the gasoline price for the state are absent; a missing
sub-series leaves its price field `undefined` rather than failing the record.
-/
def buildEnergyPrices (upperState : String) (year month : ℤ)
    (elec gas gasoline : Option (List (String × ℚ))) : Option EnergyPrices :=
  if statePrice elec upperState = none ∧ statePrice gasoline upperState = none then
    none
  else
    some
      { stateCode := upperState
        stateName := (STATE_CODE_TO_NAME.lookup upperState).getD upperState
        year := year
        month := month
        electricityPrice := statePrice elec upperState
        naturalGasPrice := statePrice gas upperState
        gasolinePrice := statePrice gasoline upperState
        electricityNationalAvg := nationalAvg0 elec
        naturalGasNationalAvg := nationalAvgOpt gas
        gasolineNationalAvg := nationalAvgOpt gasoline
        electricityIndex := electricityIndexOf (statePrice elec upperState) (nationalAvg0 elec)
        naturalGasIndex := truthyIndexOf (statePrice gas upperState) (nationalAvgOpt gas)
        gasolineIndex := truthyIndexOf (statePrice gasoline upperState) (nationalAvgOpt gasoline) }

/-! ## Claim theorems: EIA -/

/-- C8. The energy record of a state is settled from three independent
sub-series: the result is non-null iff at least one of the electricity or
gasoline values for the state is present; each price field carries exactly
its own sub-series value, so a failing or missing sub-series leaves its field
`undefined` (never zero, never an error); in particular a state with
electricity and gasoline data but no natural-gas data yields a non-null
record whose `naturalGasPrice` is `undefined`. -/
theorem energy_partial_settlement (upperState : String) (year month : ℤ)
    (elec gas gasoline : Option (List (String × ℚ))) :
    (buildEnergyPrices upperState year month elec gas gasoline = none ↔
      statePrice elec upperState = none ∧ statePrice gasoline upperState = none) ∧
    (∀ r, buildEnergyPrices upperState year month elec gas gasoline = some r →
      r.electricityPrice = statePrice elec upperState ∧
      r.naturalGasPrice = statePrice gas upperState ∧
      r.gasolinePrice = statePrice gasoline upperState) ∧
    buildEnergyPrices "CA" 2025 1 (some [("CA", 25)]) none (some [("CA", 4)]) ≠ none ∧
    (buildEnergyPrices "CA" 2025 1 (some [("CA", 25)]) none (some [("CA", 4)])).map
      EnergyPrices.naturalGasPrice = some none := by
  refine ⟨?_, ?_, by decide, by decide⟩
  · unfold buildEnergyPrices
    by_cases h : statePrice elec upperState = none ∧ statePrice gasoline upperState = none
    · rw [if_pos h]
      exact iff_of_true rfl h
    · rw [if_neg h]
      exact iff_of_false (by simp) h
  · intro r hr
    unfold buildEnergyPrices at hr
    by_cases h : statePrice elec upperState = none ∧ statePrice gasoline upperState = none
    · rw [if_pos h] at hr
      cases hr
    · rw [if_neg h] at hr
      have hr2 := (Option.some_injective _ hr).symm
      subst hr2
      exact ⟨rfl, rfl, rfl⟩

/-! ## Claim theorems: HUD -/

/-- The rational 7/10, written as a literal fraction so the kernel evaluates
it directly. -/
def ratio07 : ℚ := ⟨7, 10, by decide, by decide⟩

/-- The rational 3/10, written as a literal fraction. -/
def ratio03 : ℚ := ⟨3, 10, by decide, by decide⟩

/-- A split ZIP with two crosswalk rows of ratios 0.7 and 0.3. -/
def demoCrosswalk : List CrosswalkRow :=
  [⟨"90210", "31080", "Los Angeles-Long Beach-Anaheim, CA", ratio07⟩,
   ⟨"90210", "37100", "Oxnard-Thousand Oaks-Ventura, CA", ratio03⟩]

/-- C6. The metro resolver returns `none` exactly when the ZIP has no
crosswalk rows (an unmapped ZIP raises no error); otherwise it returns a row
of the ZIP carrying the maximal `residential_ratio`, with
`isSplitZip = true` iff more than one row exists; and the ZIP with rows of
ratios 0.7 and 0.3 resolves to the 0.7 row with `isSplitZip = true`. -/
theorem metro_resolver_primary (table : List CrosswalkRow) (zipCode : String) :
    (getMetroCodeForZip table zipCode = none ↔
      table.filter (fun r => decide (r.zip_code = zipCode)) = []) ∧
    (∀ res, getMetroCodeForZip table zipCode = some res →
      ∃ row ∈ table.filter (fun r => decide (r.zip_code = zipCode)),
        res.cbsaCode = row.cbsa_code ∧ res.cbsaName = row.cbsa_name ∧
        res.residentialRatio = row.residential_ratio ∧
        (∀ s ∈ table.filter (fun r => decide (r.zip_code = zipCode)),
          s.residential_ratio ≤ row.residential_ratio) ∧
        (res.isSplitZip = true ↔
          1 < (table.filter (fun r => decide (r.zip_code = zipCode))).length)) ∧
    getMetroCodeForZip demoCrosswalk "90210" =
      some ⟨"31080", "Los Angeles-Long Beach-Anaheim, CA",
        "Los Angeles-Long Beach-Anaheim", "CA", ratio07, true⟩ := by
  refine ⟨?_, ?_, by decide⟩
  · constructor
    · intro h
      cases hz : zipRows table zipCode with
      | nil =>
        unfold zipRows at hz
        exact (sortDescBy_eq_nil_iff crosswalkRatio).1 hz
      | cons p rest =>
        unfold getMetroCodeForZip at h
        rw [hz] at h
        cases h
    · intro h
      unfold getMetroCodeForZip
      have hz : zipRows table zipCode = [] := by
        unfold zipRows
        rw [h]
        rfl
      rw [hz]
  · intro res hres
    cases hz : zipRows table zipCode with
    | nil =>
      unfold getMetroCodeForZip at hres
      rw [hz] at hres
      cases hres
    | cons primary rest =>
      unfold getMetroCodeForZip at hres
      rw [hz] at hres
      unfold zipRows at hz
      have hres2 : res = ⟨primary.cbsa_code, primary.cbsa_name,
          parseCityName primary.cbsa_name, parseStateCode primary.cbsa_name,
          primary.residential_ratio, decide (1 < (primary :: rest).length)⟩ :=
        (Option.some_injective _ hres).symm
      subst hres2
      have hmem : primary ∈ table.filter (fun r => decide (r.zip_code = zipCode)) := by
        rw [← mem_sortDescBy crosswalkRatio, hz]
        exact List.mem_cons_self _ _
      have hlen : (primary :: rest).length =
          (table.filter (fun r => decide (r.zip_code = zipCode))).length := by
        rw [← hz, sortDescBy_length]
      refine ⟨primary, hmem, rfl, rfl, rfl, ?_, ?_⟩
      · exact fun s hs => sortDescBy_head_max crosswalkRatio hz s hs
      · simp only [decide_eq_true_eq]
        rw [hlen]

/-- A crosswalk table on which the nearby-metros name filter admits a metro
of another state: the primary of ZIP 10001 is in state VA, and the name
`"NoVAx, MD"` contains the substring `"VA"` although its state is MD. -/
def demoNearbyTable : List CrosswalkRow :=
  [⟨"10001", "100", "Richmond, VA", 1⟩,
   ⟨"88888", "222", "NoVAx, MD", 0⟩]

/-- Counterexample to C9 as stated: on `demoNearbyTable` the resolver gives a
primary in state `"VA"`, yet the returned nearby metro is in state `"MD"` —
the `LIKE '%VA%'` filter matches the name `"NoVAx, MD"` by substring, so the
result is not restricted to the primary's state. -/
theorem nearby_metros_state_counter :
    (getMetroCodeForZip demoNearbyTable "10001").map CBSACrosswalkResult.stateCode =
      some "VA" ∧
    getNearbyMetros demoNearbyTable "10001" 5 =
      [⟨"222", "NoVAx, MD", "NoVAx", "MD", 0, false⟩] := by
  refine ⟨by decide, by decide⟩

/-- C9 (amended). For an unresolvable ZIP the nearby-metros list is empty.
For a resolvable ZIP it has length at most `limit`, is ordered by
`residentialRatio` descending, holds at most one entry per CBSA code, and each
entry is built from a candidate row — one whose `cbsa_name` contains the
primary's `stateCode` as a substring (the name-based `LIKE` filter, which can
admit metros of other states) and whose code differs from the primary's —
that carries the maximal ratio among candidates of its code. -/
theorem nearby_metros_properties (table : List CrosswalkRow) (zipCode : String)
    (limit : ℕ) :
    (getMetroCodeForZip table zipCode = none →
      getNearbyMetros table zipCode limit = []) ∧
    ∀ primary, getMetroCodeForZip table zipCode = some primary →
      (getNearbyMetros table zipCode limit).length ≤ limit ∧
      (getNearbyMetros table zipCode limit).Pairwise
        (fun a b => b.residentialRatio ≤ a.residentialRatio) ∧
      (getNearbyMetros table zipCode limit).Pairwise
        (fun a b => a.cbsaCode ≠ b.cbsaCode) ∧
      ∀ res ∈ getNearbyMetros table zipCode limit,
        ∃ row ∈ nearbyCandidates table primary,
          res = mkNearbyResult row ∧
          containsSubstring row.cbsa_name primary.stateCode = true ∧
          row.cbsa_code ≠ primary.cbsaCode ∧
          ∀ s ∈ nearbyCandidates table primary,
            s.cbsa_code = row.cbsa_code →
            s.residential_ratio ≤ row.residential_ratio := by
  constructor
  · intro h
    unfold getNearbyMetros
    rw [h]
  · intro primary hp
    unfold getNearbyMetros
    rw [hp]
    simp only
    have hsorted := sortDescBy_sorted crosswalkRatio (nearbyCandidates table primary)
    have hpref : List.Sublist
        ((sortDescBy crosswalkRatio (nearbyCandidates table primary)).take (limit * 3))
        (sortDescBy crosswalkRatio (nearbyCandidates table primary)) :=
      List.take_sublist _ _
    have hded : List.Sublist
        (dedupeByCbsa limit
          ((sortDescBy crosswalkRatio (nearbyCandidates table primary)).take (limit * 3))
          [] 0)
        ((sortDescBy crosswalkRatio (nearbyCandidates table primary)).take (limit * 3)) :=
      dedupeByCbsa_sublist _ _ _ _
    refine ⟨?_, ?_, ?_, ?_⟩
    · rw [List.length_map]
      have := dedupeByCbsa_length limit
        ((sortDescBy crosswalkRatio (nearbyCandidates table primary)).take (limit * 3)) [] 0
      omega
    · rw [List.pairwise_map]
      exact ((hsorted.sublist hpref).sublist hded)
    · rw [List.pairwise_map]
      exact dedupeByCbsa_pairwise_codes limit _ [] 0
    · intro res hres
      rw [List.mem_map] at hres
      obtain ⟨row, hrow, hmk⟩ := hres
      have hrowpref := dedupeByCbsa_mem limit hrow
      have hrowsorted := hpref.mem hrowpref
      have hrowcand : row ∈ nearbyCandidates table primary :=
        (mem_sortDescBy crosswalkRatio).1 hrowsorted
      have hfilter := hrowcand
      rw [nearbyCandidates, List.mem_filter, Bool.and_eq_true, decide_eq_true_eq] at hfilter
      refine ⟨row, hrowcand, hmk.symm, hfilter.2.1, hfilter.2.2, ?_⟩
      intro s hs hcode
      have hssorted : s ∈ sortDescBy crosswalkRatio (nearbyCandidates table primary) :=
        (mem_sortDescBy crosswalkRatio).2 hs
      rw [← List.take_append_drop (limit * 3)
        (sortDescBy crosswalkRatio (nearbyCandidates table primary)),
        List.mem_append] at hssorted
      rcases hssorted with hstake | hsdrop
      · have hprefsorted := hsorted.sublist hpref
        exact dedupeByCbsa_dominates limit _ [] 0 hprefsorted row hrow s hstake hcode
      · have hsplit := hsorted
        rw [← List.take_append_drop (limit * 3)
          (sortDescBy crosswalkRatio (nearbyCandidates table primary)),
          List.pairwise_append] at hsplit
        exact hsplit.2.2 row hrowpref s hsdrop

/-- The per-item lookup of the batch witness: ZIP 10001 fails, the others
resolve. -/
def demoLookup : String → Except String ℕ := fun zip =>
  if zip = "10001" then .error "No Fair Market Rent data available"
  else if zip = "90210" then .ok 1200
  else .ok 950

/-- C7. A batch of 2 to 20 well-formed ZIPs is dispatched per item: the route
answers with `success = true` and one `{data | error}` item per ZIP, whatever
the individual lookups do — one failing ZIP never fails the batch; a batch of
more than 20 ZIPs is rejected with a 400 invalid-parameters response that does
not depend on the lookup function (no lookup is dispatched). -/
theorem hud_batch_independence {α : Type} (lookup lookup2 : String → Except String α)
    (zipCodes : List String) (hv : ∀ z ∈ zipCodes, validateZipCode z = true)
    (hn : 2 ≤ zipCodes.length) :
    (zipCodes.length ≤ 20 →
      hudBatchRoute lookup zipCodes =
        .batch (fetchMultipleFairMarketRents lookup zipCodes) ∧
      (hudBatchRoute lookup zipCodes).success = true ∧
      (fetchMultipleFairMarketRents lookup zipCodes).length = zipCodes.length ∧
      ∀ item ∈ fetchMultipleFairMarketRents lookup zipCodes,
        (item.data.isSome = true ↔ item.error = none)) ∧
    (20 < zipCodes.length →
      hudBatchRoute lookup zipCodes = .tooManyZips ∧
      (hudBatchRoute lookup zipCodes).success = false ∧
      hudBatchRoute lookup zipCodes = hudBatchRoute lookup2 zipCodes) := by
  have hfilter : (zipCodes.filter fun z => ! validateZipCode z) = [] := by
    rw [List.filter_eq_nil_iff]
    intro z hz
    rw [hv z hz]
    decide
  constructor
  · intro hle
    have hroute : hudBatchRoute lookup zipCodes =
        .batch (fetchMultipleFairMarketRents lookup zipCodes) := by
      unfold hudBatchRoute
      rw [hfilter]
      rw [if_neg (by simp), if_neg (by omega)]
    refine ⟨hroute, by rw [hroute]; rfl, by rw [fetchMultipleFairMarketRents, List.length_map], ?_⟩
    intro item hitem
    rw [fetchMultipleFairMarketRents, List.mem_map] at hitem
    obtain ⟨zip, _, hmk⟩ := hitem
    cases hl : lookup zip with
    | ok d =>
      rw [hl] at hmk
      rw [← hmk]
      simp
    | error e =>
      rw [hl] at hmk
      rw [← hmk]
      simp
  · intro hgt
    have hroute : hudBatchRoute lookup zipCodes = .tooManyZips := by
      unfold hudBatchRoute
      rw [hfilter]
      rw [if_neg (by simp), if_pos hgt]
    have hroute2 : hudBatchRoute lookup2 zipCodes = .tooManyZips := by
      unfold hudBatchRoute
      rw [hfilter]
      rw [if_neg (by simp), if_pos hgt]
    exact ⟨hroute, by rw [hroute]; rfl, by rw [hroute, hroute2]⟩

/-- Witness for C7 at a concrete input: the 3-ZIP batch of the spec's example,
where the middle ZIP's lookup fails: the batch succeeds with two data items
and one structured per-item error. -/
theorem hud_batch_independence_witness :
    hudBatchRoute demoLookup ["90210", "10001", "60601"] =
      .batch [⟨"90210", some 1200, none⟩,
              ⟨"10001", none, some "No Fair Market Rent data available"⟩,
              ⟨"60601", some 950, none⟩] ∧
    (hudBatchRoute demoLookup ["90210", "10001", "60601"]).success = true :=
  ⟨by decide,
   ((hud_batch_independence demoLookup demoLookup ["90210", "10001", "60601"]
      (by decide) (by decide)).1 (by decide)).2.1⟩

/-! ## Claim theorems: cache -/

/-- C1. For every valid source, key and non-null payload, a cache set followed
by a cache read of the same `(source, key)` before the entry's TTL has elapsed
returns exactly the stored payload (with its age in whole seconds), and a read
through the fetch wrapper `withCache` reports `cached = true` with that same,
non-negative `cacheAge`. -/
theorem cache_set_then_get_hit {α : Type} (store : CacheStore α) (source : APISource)
    (key : String) (p : α) (config : CacheConfig) (fetched : Option α) (t₁ t₂ : ℤ)
    (hsrc : config.source = source) (h₁ : t₁ ≤ t₂)
    (h₂ : t₂ < t₁ + (config.resolveTtl : ℤ) * 1000) :
    ApiCache.getCachedData (ApiCache.setCachedData store key (some p) config t₁)
        source key t₂ = some (p, (t₂ - t₁) / 1000) ∧
    (ApiCache.withCache (ApiCache.setCachedData store key (some p) config t₁)
        key config fetched t₂).1 = ⟨some p, true, some ((t₂ - t₁) / 1000)⟩ ∧
    0 ≤ (t₂ - t₁) / 1000 := by
  subst hsrc
  have hrow : ApiCache.setCachedData store key (some p) config t₁ config.source key
      = some ⟨p, t₁, t₁ + (config.resolveTtl : ℤ) * 1000⟩ := by
    simp [ApiCache.setCachedData]
  have hget : ApiCache.getCachedData (ApiCache.setCachedData store key (some p) config t₁)
      config.source key t₂ = some (p, (t₂ - t₁) / 1000) := by
    unfold ApiCache.getCachedData
    rw [hrow]
    simp only [gt_iff_lt, if_pos h₂]
  refine ⟨hget, ?_, Int.ediv_nonneg (sub_nonneg.2 h₁) (by norm_num)⟩
  unfold ApiCache.withCache
  rw [hget]

/-- Witness for C1 at a concrete input: payload 7 written at time 0 with a
60-second TTL and read back at time 1000 (one second later). -/
theorem cache_set_then_get_hit_witness :
    ApiCache.getCachedData
        (ApiCache.setCachedData (fun _ _ => (none : Option (CacheRow ℕ))) "zip:90210"
          (some 7) ⟨.bea, some 60⟩ 0) .bea "zip:90210" 1000
      = some (7, (1000 - 0) / 1000) ∧
    0 ≤ ((1000 : ℤ) - 0) / 1000 :=
  ⟨(cache_set_then_get_hit (fun _ _ => none) .bea "zip:90210" 7 ⟨.bea, some 60⟩ none 0 1000
      rfl (by decide) (by decide)).1,
   (cache_set_then_get_hit (fun _ _ => none) .bea "zip:90210" 7 ⟨.bea, some 60⟩ none 0 1000
      rfl (by decide) (by decide)).2.2⟩

/-- C2. The cache read of `src/lib/cache.ts` is total and fails open: it
returns `null` exactly when the store reports an error, no row exists, or the
row is expired or malformed (invalid expiration date); in every other case it
returns the stored payload. -/
theorem cache_get_fail_open {α : Type} (source : APISource) (key : String)
    (db : LibCache.DbResult α) (now : ℤ) (hkey : key ≠ "") :
    (LibCache.getCachedData source key db now = none ↔
      (∃ c, db = .failure c) ∨ db = .success none ∨
        ∃ row, db = .success (some row) ∧
          LibCache.isCacheValid row.expires_at now = false) ∧
    ∀ row, db = .success (some row) →
      LibCache.isCacheValid row.expires_at now = true →
      LibCache.getCachedData source key db now = some row.data := by
  constructor
  · cases db with
    | failure c => simp [LibCache.getCachedData, hkey, LibCache.isValidAPISource]
    | success r =>
      cases r with
      | none => simp [LibCache.getCachedData, hkey, LibCache.isValidAPISource]
      | some row =>
        by_cases hv : LibCache.isCacheValid row.expires_at now <;>
          simp [LibCache.getCachedData, hkey, LibCache.isValidAPISource, hv]
  · intro row hdb hv
    subst hdb
    simp [LibCache.getCachedData, hkey, LibCache.isValidAPISource, hv]

/-- Witness for C2 at a concrete input: a present, unexpired row is returned;
the hypotheses are discharged at `key = "zip:90210"`. -/
theorem cache_get_fail_open_witness :
    ("zip:90210" : String) ≠ "" ∧
    LibCache.getCachedData APISource.hud "zip:90210"
      (LibCache.DbResult.success (some ⟨(5 : ℕ), .valid 100⟩)) 0 = some 5 :=
  ⟨by decide,
   (cache_get_fail_open APISource.hud "zip:90210"
      (LibCache.DbResult.success (some ⟨(5 : ℕ), .valid 100⟩)) 0 (by decide)).2
     ⟨5, .valid 100⟩ rfl (by decide)⟩

/-! ## Claim theorems: rate limiter -/

theorem bucketAfter_window (config : RateLimitConfig) (t : ℕ → ℤ) (N : ℕ)
    (hN : config.maxRequests = N)
    (hwin : ∀ k, k ≤ N → t k ≤ t 0 + config.windowMs) :
    ∀ k, 1 ≤ k → k ≤ N → bucketAfter config t k = some ⟨k, t 0 + config.windowMs⟩ := by
  intro k
  induction k with
  | zero => omega
  | succ k ih =>
    intro _ hk
    by_cases hk0 : k = 0
    · subst hk0
      simp [bucketAfter, checkRateLimit]
    · have hk1 : 1 ≤ k := Nat.one_le_iff_ne_zero.2 hk0
      have hkN : k ≤ N := Nat.le_of_succ_le hk
      have ihk := ih hk1 hkN
      have hnr : ¬ (t 0 + config.windowMs < t k) := not_lt.2 (hwin k hkN)
      have hcnt : ¬ (k ≥ N) := Nat.not_le.2 (Nat.lt_of_succ_le hk)
      show some (checkRateLimit (bucketAfter config t k) config (t k)).2 = _
      rw [ihk]
      simp [checkRateLimit, hnr, hN, hcnt]

/-- C3 (amended). With `maxRequests = N ≥ 1` and `N + 1` calls all made at
times within the first call's window (`t k ≤ t 0 + windowMs`), calls `1..N`
are allowed with `remaining = N - count` and the window's `resetTime`; call
`N + 1` is rejected with `retryAfter = Math.ceil((resetTime - now) / 1000)`,
which is non-negative, and strictly positive whenever that call happens
strictly before `resetTime` (at `now = resetTime` exactly, it is `0`); and the
first call after the window has elapsed is allowed again with a fresh window.
-/
theorem rate_limit_window_sequence (config : RateLimitConfig) (t : ℕ → ℤ) (N : ℕ)
    (hN : config.maxRequests = N) (h1 : 1 ≤ N)
    (hwin : ∀ k, k ≤ N → t k ≤ t 0 + config.windowMs) :
    (∀ k, k < N → resultAt config t k =
        ⟨true, (N : ℤ) - (k + 1), t 0 + config.windowMs, none⟩) ∧
    resultAt config t N =
      ⟨false, 0, t 0 + config.windowMs,
        some (ceilDiv1000 (t 0 + config.windowMs - t N))⟩ ∧
    0 ≤ ceilDiv1000 (t 0 + config.windowMs - t N) ∧
    (t N < t 0 + config.windowMs →
      0 < ceilDiv1000 (t 0 + config.windowMs - t N)) ∧
    ∀ s : ℤ, t 0 + config.windowMs < s →
      (checkRateLimit (bucketAfter config t (N + 1)) config s).1 =
          ⟨true, (N : ℤ) - 1, s + config.windowMs, none⟩ ∧
      (checkRateLimit (bucketAfter config t (N + 1)) config s).2 =
          ⟨1, s + config.windowMs⟩ := by
  have hbucket := bucketAfter_window config t N hN hwin
  have hNbucket : bucketAfter config t N = some ⟨N, t 0 + config.windowMs⟩ :=
    hbucket N h1 (le_refl N)
  have hreject : checkRateLimit (bucketAfter config t N) config (t N) =
      (⟨false, 0, t 0 + config.windowMs,
        some (ceilDiv1000 (t 0 + config.windowMs - t N))⟩,
       ⟨N, t 0 + config.windowMs⟩) := by
    rw [hNbucket]
    have hnr : ¬ (t 0 + config.windowMs < t N) := not_lt.2 (hwin N (le_refl N))
    simp [checkRateLimit, hnr, hN]
  refine ⟨?_, ?_, ?_, ?_, ?_⟩
  · intro k hk
    by_cases hk0 : k = 0
    · subst hk0
      simp [resultAt, bucketAfter, checkRateLimit, hN]
    · have hk1 : 1 ≤ k := Nat.one_le_iff_ne_zero.2 hk0
      have ihk := hbucket k hk1 (le_of_lt hk)
      have hnr : ¬ (t 0 + config.windowMs < t k) := not_lt.2 (hwin k (le_of_lt hk))
      have hcnt : ¬ (k ≥ N) := Nat.not_le.2 hk
      unfold resultAt
      rw [ihk]
      simp [checkRateLimit, hnr, hN, hcnt]
  · unfold resultAt
    rw [hreject]
  · unfold ceilDiv1000
    have hd : 0 ≤ t 0 + config.windowMs - t N := sub_nonneg.2 (hwin N (le_refl N))
    have : -(t 0 + config.windowMs - t N) / 1000 ≤ 0 := by
      have h0 : (-(t 0 + config.windowMs - t N)) ≤ 0 := neg_nonpos.2 hd
      calc -(t 0 + config.windowMs - t N) / 1000 ≤ 0 / 1000 :=
            Int.ediv_le_ediv (by norm_num) h0
        _ = 0 := Int.zero_ediv 1000
    omega
  · intro hlt
    unfold ceilDiv1000
    have hd : 0 < t 0 + config.windowMs - t N := sub_pos.2 hlt
    have : -(t 0 + config.windowMs - t N) / 1000 < 0 :=
      Int.ediv_neg' (neg_neg_of_pos hd) (by norm_num)
    omega
  · intro s hs
    have hb : bucketAfter config t (N + 1) = some ⟨N, t 0 + config.windowMs⟩ := by
      show some (checkRateLimit (bucketAfter config t N) config (t N)).2 = _
      rw [hreject]
    rw [hb]
    constructor <;> simp [checkRateLimit, hs, hN]

/-- Witness for C3 (amended) at a concrete input: `maxRequests = 2`,
`windowMs = 60000`, three calls all at time 0; the third call is rejected. -/
theorem rate_limit_window_sequence_witness :
    resultAt ⟨60000, 2⟩ (fun _ => 0) 2 =
      ⟨false, 0, 0 + 60000, some (ceilDiv1000 (0 + 60000 - 0))⟩ :=
  (rate_limit_window_sequence ⟨60000, 2⟩ (fun _ => 0) 2 rfl (by decide)
    (fun _ _ => by show (0 : ℤ) ≤ 0 + 60000; norm_num)).2.1

/-- Counterexample to C3 as stated: with `windowMs = 1000` and
`maxRequests = 1`, a first call at time 0 is allowed; a second call at time
1000 — the exact `resetTime`, which the code still treats as inside the window
(it does not reset the bucket) — is rejected with `retryAfter = 0`, not
`retryAfter > 0` as the claim requires. -/
theorem rate_limit_boundary_retryAfter_zero :
    (resultAt ⟨1000, 1⟩ (fun k => if k = 0 then 0 else 1000) 0).allowed = true ∧
    resultAt ⟨1000, 1⟩ (fun k => if k = 0 then 0 else 1000) 1 =
      ⟨false, 0, 1000, some 0⟩ ∧
    bucketAfter ⟨1000, 1⟩ (fun k => if k = 0 then 0 else 1000) 2 = some ⟨1, 1000⟩ := by
  refine ⟨?_, ?_, ?_⟩ <;> decide

/-- C10 (amended). For every configuration with `maxRequests ≥ 1`, after any
sequence of checks the stored bucket's count never exceeds `maxRequests`, and
a rejected call returns the stored bucket completely unchanged (only allowed
calls increment the count or reset the window). -/
theorem rate_limit_count_invariant (config : RateLimitConfig)
    (h1 : 1 ≤ config.maxRequests) :
    (∀ (t : ℕ → ℤ) (k : ℕ) (e : RateLimitEntry),
      bucketAfter config t k = some e → e.count ≤ config.maxRequests) ∧
    (∀ (b : Option RateLimitEntry) (now : ℤ),
      (checkRateLimit b config now).1.allowed = false →
      b = some (checkRateLimit b config now).2) := by
  constructor
  · intro t k
    induction k with
    | zero => intro e he; cases he
    | succ k ih =>
      intro e he
      have he2 : (checkRateLimit (bucketAfter config t k) config (t k)).2 = e :=
        Option.some_injective _ he
      cases hb : bucketAfter config t k with
      | none =>
        rw [hb] at he2
        rw [← he2]
        simpa [checkRateLimit] using h1
      | some b =>
        rw [hb] at he2
        rw [← he2]
        by_cases hr : b.resetTime < t k
        · simpa [checkRateLimit, hr] using h1
        · by_cases hc : b.count ≥ config.maxRequests
          · simpa [checkRateLimit, hr, hc] using ih b hb
          · simp [checkRateLimit, hr, hc]
            omega
  · intro b now hall
    cases b with
    | none => simp [checkRateLimit] at hall
    | some e =>
      by_cases hr : e.resetTime < now
      · simp [checkRateLimit, hr] at hall
      · by_cases hc : e.count ≥ config.maxRequests
        · simp [checkRateLimit, hr, hc]
        · simp [checkRateLimit, hr, hc] at hall

/-- Witness for C10 (amended) at a concrete input: with `maxRequests = 2`,
after three calls at time 0 the stored count is at most 2, and the rejected
third call left the bucket unchanged. -/
theorem rate_limit_count_invariant_witness :
    (bucketAfter ⟨60000, 2⟩ (fun _ => 0) 3 = some ⟨2, 60000⟩) ∧
    ((checkRateLimit (some ⟨2, 60000⟩) ⟨60000, 2⟩ 0).1.allowed = false →
      some ⟨2, 60000⟩ = some (checkRateLimit (some ⟨2, 60000⟩) ⟨60000, 2⟩ 0).2) :=
  ⟨by decide, (rate_limit_count_invariant ⟨60000, 2⟩ (by decide)).2 (some ⟨2, 60000⟩) 0⟩

/-- Counterexample to C10 as stated: with `maxRequests = 0` the very first
call of a window creates a bucket with `count = 1 > 0 = maxRequests`, so the
stored count exceeds the configured maximum. -/
theorem rate_limit_zero_max_counter :
    bucketAfter ⟨60000, 0⟩ (fun _ => 0) 1 = some ⟨1, 60000⟩ ∧
    ¬ ((1 : ℕ) ≤ (⟨60000, 0⟩ : RateLimitConfig).maxRequests) := by
  refine ⟨?_, ?_⟩ <;> decide

end CostWise
